import Mathlib

/-!
Verification of the Shuttle Forge request lifecycle and composer logic.

The embedding below translates the two relevant components of the source:

* the operator dashboard (`OwnerDashboard`): the request record, the
  `handleAcceptRequest` / `handleCompleteRequest` status handlers, the
  `filteredRequests` computation and the derived status counts;
* the customer composer (`ShuttleRequest`): the vehicle-list state with its
  `handleVehicleCountChange`, `setVehicleField` and `setVehicleTransmission`
  handlers.

JavaScript string fields are modelled as `String`, numbers that hold
geographic coordinates as `Rat` (no claim inspects them numerically), and
the status / transmission string enums as inductive types.  React
`setState(prev => ...)` updater calls become pure functions from the old
collection to the new one, which is exactly their semantics in the source:
every update is a whole-array replacement.
-/

/-- Statuses actually exercised by the dashboard component
(`status: "pending" | "active" | "completed"`). -/
inductive Status where
  | pending
  | active
  | completed
deriving DecidableEq, Repr

/-- Transmission enum of the dashboard request record
(`transmission: "manual" | "auto"`). -/
inductive DashTransmission where
  | manual
  | auto
deriving DecidableEq, Repr

/-- A vehicle record as stored on a dashboard request. -/
structure DashVehicle where
  make : String
  model : String
  year : String
  transmission : DashTransmission
deriving DecidableEq, Repr

/-- A location as stored on a dashboard request: human-readable name plus
numeric coordinates. -/
structure GeoPoint where
  name : String
  lat : Rat
  lng : Rat
deriving DecidableEq, Repr

/-- The `ShuttleRequest` record of the dashboard component. -/
structure ShuttleRequest where
  id : String
  customerName : String
  customerPhone : String
  customerEmail : String
  parkingLocation : GeoPoint
  dropoffLocation : GeoPoint
  vehicleCount : Nat
  vehicles : List DashVehicle
  dropoffDay : String
  arrivalTime : String
  status : Status
  createdAt : String
  notes : Option String
deriving DecidableEq, Repr

/-- `handleAcceptRequest`: maps over the request list and replaces the
status of every request whose id matches with "active"; there is no check
of the current status in the source. -/
def handleAcceptRequest (reqs : List ShuttleRequest) (requestId : String) :
    List ShuttleRequest :=
  reqs.map fun req =>
    if req.id = requestId then { req with status := Status.active } else req

/-- `handleCompleteRequest`: maps over the request list and replaces the
status of every request whose id matches with "completed"; again with no
check of the current status. -/
def handleCompleteRequest (reqs : List ShuttleRequest) (requestId : String) :
    List ShuttleRequest :=
  reqs.map fun req =>
    if req.id = requestId then { req with status := Status.completed } else req

/-- The filter tab values of the dashboard:
`useState<"all" | "pending" | "active" | "completed">`. -/
inductive StatusFilter where
  | all
  | pending
  | active
  | completed
deriving DecidableEq, Repr

/-- The filter string a given status string coincides with: the dashboard
compares `request.status === filter` as strings, and the status strings
"pending", "active", "completed" are exactly the like-named filter
strings. -/
def Status.asFilter : Status → StatusFilter
  | Status.pending => StatusFilter.pending
  | Status.active => StatusFilter.active
  | Status.completed => StatusFilter.completed

/-- `filteredRequests`: `requests.filter(request => filter === "all" ||
request.status === filter)`. -/
def filteredRequests (reqs : List ShuttleRequest) (filter : StatusFilter) :
    List ShuttleRequest :=
  reqs.filter fun request =>
    filter == StatusFilter.all || request.status.asFilter == filter

/-- The "Pending" stats card and filter tab count:
`requests.filter(r => r.status === "pending").length`, recomputed from the
live `requests` state on each render. -/
def pendingCount (reqs : List ShuttleRequest) : Nat :=
  (reqs.filter fun r => r.status == Status.pending).length

/-- The "Active" stats card and filter tab count. -/
def activeCount (reqs : List ShuttleRequest) : Nat :=
  (reqs.filter fun r => r.status == Status.active).length

/-- The "Completed" stats card and filter tab count. -/
def completedCount (reqs : List ShuttleRequest) : Nat :=
  (reqs.filter fun r => r.status == Status.completed).length

/-- The "All Requests" tab count: `requests.length`. -/
def allCount (reqs : List ShuttleRequest) : Nat :=
  reqs.length

/-- A dashboard console action: the two status-mutating handlers, each
invoked with a request id. -/
inductive ConsoleOp where
  | accept (requestId : String)
  | complete (requestId : String)
deriving DecidableEq, Repr

/-- Apply one console action to the request collection. -/
def applyConsoleOp (reqs : List ShuttleRequest) : ConsoleOp → List ShuttleRequest
  | ConsoleOp.accept rid => handleAcceptRequest reqs rid
  | ConsoleOp.complete rid => handleCompleteRequest reqs rid

/-- Run a sequence of console actions from an initial collection. -/
def runConsoleOps (reqs : List ShuttleRequest) (ops : List ConsoleOp) :
    List ShuttleRequest :=
  ops.foldl applyConsoleOp reqs

/-- Position of a status along the lifecycle
pending (0) → active (1) → completed (2). -/
def Status.rank : Status → Nat
  | Status.pending => 0
  | Status.active => 1
  | Status.completed => 2

/-- The discipline the dashboard UI enforces: the "Accept Request" button is
rendered only when the selected request has status "pending", and the
"Mark as Completed" button only when it has status "active".  A guarded
step is one handler invocation obeying that discipline. -/
inductive GuardedStep : List ShuttleRequest → List ShuttleRequest → Prop where
  | accept (reqs : List ShuttleRequest) (rid : String)
      (h : ∀ r ∈ reqs, r.id = rid → r.status = Status.pending) :
      GuardedStep reqs (handleAcceptRequest reqs rid)
  | complete (reqs : List ShuttleRequest) (rid : String)
      (h : ∀ r ∈ reqs, r.id = rid → r.status = Status.active) :
      GuardedStep reqs (handleCompleteRequest reqs rid)

/-!
The composer (`ShuttleRequest` component).  The handlers below touch only
the `vehicleCount` and `vehicles` React states; the other form states
(locations, schedule, trip data, ...) live in separate `useState` cells
that these handlers never reference, so the composer state we embed is the
pair of the two vehicle states.
-/

/-- Transmission enum of the composer
(`type TransmissionType = "automatic" | "manual"`). -/
inductive TransmissionType where
  | automatic
  | manual
deriving DecidableEq, Repr

/-- A composer vehicle record (`interface VehicleRequest`). -/
structure VehicleRequest where
  id : Nat
  transmission : TransmissionType
  make : String
  model : String
  year : String
deriving DecidableEq, Repr

/-- The two vehicle-related React states of the composer. -/
structure ComposerState where
  vehicleCount : Nat
  vehicles : List VehicleRequest
deriving DecidableEq, Repr

/-- Initial composer state:
`useState<number>(1)` and
`useState<VehicleRequest[]>([{ id: 1, transmission: "automatic", make: "",
model: "", year: "" }])`. -/
def initialComposerState : ComposerState :=
  { vehicleCount := 1
    vehicles := [{ id := 1, transmission := TransmissionType.automatic,
                   make := "", model := "", year := "" }] }

/-- The clamp of `handleVehicleCountChange`:
`Math.max(1, Math.min(10, count))`, on an integer input. -/
def safeVehicleCount (count : Int) : Int :=
  max 1 (min 10 count)

/-- The fresh record pushed for loop index `i`:
`{ id: i + 1, transmission: "automatic", make: "", model: "", year: "" }`. -/
def freshVehicle (i : Nat) : VehicleRequest :=
  { id := i + 1, transmission := TransmissionType.automatic,
    make := "", model := "", year := "" }

/-- The `setVehicles` updater of `handleVehicleCountChange`: copy the
previous array; when the clamped count exceeds its length, push fresh
records for indices `length, ..., safeCount - 1`; when it is smaller,
truncate (`next.length = safeCount`); otherwise leave it as is. -/
def resizeVehicles (prev : List VehicleRequest) (safeCount : Nat) :
    List VehicleRequest :=
  if prev.length < safeCount then
    prev ++ (List.range (safeCount - prev.length)).map
      fun k => freshVehicle (prev.length + k)
  else if safeCount < prev.length then
    prev.take safeCount
  else
    prev

/-- `handleVehicleCountChange`: clamp the input, store it as the new count,
and resize the vehicle list to match. -/
def handleVehicleCountChange (st : ComposerState) (count : Int) : ComposerState :=
  let safeCount := (safeVehicleCount count).toNat
  { vehicleCount := safeCount
    vehicles := resizeVehicles st.vehicles safeCount }

/-- The string-valued fields a caller of `setVehicleField` passes (the
component invokes it with "make", "model" and "year"; `transmission` has
its own dedicated setter). -/
inductive VehicleField where
  | make
  | model
  | year
deriving DecidableEq, Repr

/-- `{ ...v, [field]: value }` for a string-valued field. -/
def VehicleRequest.setField (v : VehicleRequest) :
    VehicleField → String → VehicleRequest
  | VehicleField.make, value => { v with make := value }
  | VehicleField.model, value => { v with model := value }
  | VehicleField.year, value => { v with year := value }

/-- `setVehicleField`: `prev.map(v => v.id === id ?
{ ...v, [field]: value } : v)`; the count state is untouched. -/
def setVehicleField (st : ComposerState) (id : Nat) (field : VehicleField)
    (value : String) : ComposerState :=
  { st with
    vehicles := st.vehicles.map fun v =>
      if v.id = id then v.setField field value else v }

/-- `setVehicleTransmission`: `prev.map(v => v.id === id ?
{ ...v, transmission } : v)`; the count state is untouched. -/
def setVehicleTransmission (st : ComposerState) (id : Nat)
    (transmission : TransmissionType) : ComposerState :=
  { st with
    vehicles := st.vehicles.map fun v =>
      if v.id = id then { v with transmission := transmission } else v }

/-- A composer action on the vehicle states. -/
inductive ComposerOp where
  | setCount (count : Int)
  | setField (id : Nat) (field : VehicleField) (value : String)
  | setTransmission (id : Nat) (transmission : TransmissionType)
deriving DecidableEq, Repr

/-- Apply one composer action. -/
def applyComposerOp (st : ComposerState) : ComposerOp → ComposerState
  | ComposerOp.setCount count => handleVehicleCountChange st count
  | ComposerOp.setField id field value => setVehicleField st id field value
  | ComposerOp.setTransmission id t => setVehicleTransmission st id t

/-- Run a sequence of composer actions from the initial state. -/
def runComposerOps (ops : List ComposerOp) : ComposerState :=
  ops.foldl applyComposerOp initialComposerState

/-- The invariant of the composer vehicle states: the declared count lies
in [1, 10] and the vehicle list has exactly that length. -/
def ComposerInv (st : ComposerState) : Prop :=
  st.vehicles.length = st.vehicleCount ∧
    1 ≤ st.vehicleCount ∧ st.vehicleCount ≤ 10

instance : DecidablePred ComposerInv := fun st => by
  unfold ComposerInv; infer_instance

/-- Ids in the vehicle list are the 1-based positions: the shape the
composer establishes initially and maintains (fresh records get
`id = i + 1` for their position `i`, and no setter writes `id`). -/
def IdsSequential (l : List VehicleRequest) : Prop :=
  ∀ j (hj : j < l.length), (l.get ⟨j, hj⟩).id = j + 1

/-- A concrete dashboard request with the given id and status, used to
evaluate the handlers on explicit inputs. -/
def mkRequest (rid : String) (status : Status) : ShuttleRequest :=
  { id := rid
    customerName := "John Smith"
    customerPhone := "+1 (555) 123-4567"
    customerEmail := "john@example.com"
    parkingLocation := { name := "Downtown Parking Garage", lat := 0, lng := 0 }
    dropoffLocation := { name := "Mountain Resort", lat := 0, lng := 0 }
    vehicleCount := 1
    vehicles := [{ make := "Toyota", model := "4Runner", year := "2020",
                   transmission := DashTransmission.auto }]
    dropoffDay := "2024-01-15"
    arrivalTime := "08:00"
    status := status
    createdAt := "2024-01-10T10:30:00Z"
    notes := none }

/-- Sample request id used in concrete evaluations. -/
def ridOne : String := "1"

/-- A second sample request id. -/
def ridTwo : String := "2"

/-- A sample make string for concrete evaluations. -/
def sampleMake : String := "Ford"

/-!  Helper lemmas about the composer handlers. -/

theorem resizeVehicles_length (prev : List VehicleRequest) (c : Nat) :
    (resizeVehicles prev c).length = c := by
  unfold resizeVehicles
  split
  · simp only [List.length_append, List.length_map, List.length_range]
    omega
  · split
    · simp only [List.length_take]
      omega
    · omega

theorem resizeVehicles_get_lt (prev : List VehicleRequest) (c : Nat)
    (j : Nat) (hj : j < (resizeVehicles prev c).length)
    (hjs : j < prev.length) :
    (resizeVehicles prev c).get ⟨j, hj⟩ = prev.get ⟨j, hjs⟩ := by
  unfold resizeVehicles
  by_cases h1 : prev.length < c
  · simp only [if_pos h1, List.get_eq_getElem, List.getElem_append_left hjs]
  · by_cases h2 : c < prev.length
    · simp only [if_neg h1, if_pos h2, List.get_eq_getElem, List.getElem_take]
    · simp only [if_neg h1, if_neg h2, List.get_eq_getElem]

theorem resizeVehicles_get_ge (prev : List VehicleRequest) (c : Nat)
    (j : Nat) (hj : j < (resizeVehicles prev c).length)
    (hjs : prev.length ≤ j) :
    (resizeVehicles prev c).get ⟨j, hj⟩ = freshVehicle j := by
  have hlen := resizeVehicles_length prev c
  unfold resizeVehicles
  by_cases h1 : prev.length < c
  · simp only [if_pos h1, List.get_eq_getElem, List.getElem_append_right hjs,
      List.getElem_map, List.getElem_range]
    congr 1
    omega
  · by_cases h2 : c < prev.length
    · omega
    · omega

theorem safeVehicleCount_bounds (n : Int) :
    1 ≤ (safeVehicleCount n).toNat ∧ (safeVehicleCount n).toNat ≤ 10 := by
  unfold safeVehicleCount
  omega

theorem composerInv_initial : ComposerInv initialComposerState := by
  decide

theorem composerInv_step (st : ComposerState) (op : ComposerOp)
    (h : ComposerInv st) : ComposerInv (applyComposerOp st op) := by
  obtain ⟨hlen, hlo, hhi⟩ := h
  cases op with
  | setCount count =>
    refine ⟨?_, ?_, ?_⟩
    · exact resizeVehicles_length st.vehicles (safeVehicleCount count).toNat
    · exact (safeVehicleCount_bounds count).1
    · exact (safeVehicleCount_bounds count).2
  | setField id field value =>
    exact ⟨by simpa [applyComposerOp, setVehicleField] using hlen, hlo, hhi⟩
  | setTransmission id t =>
    exact ⟨by simpa [applyComposerOp, setVehicleTransmission] using hlen, hlo, hhi⟩

theorem composerInv_foldl (ops : List ComposerOp) :
    ∀ st : ComposerState, ComposerInv st →
      ComposerInv (ops.foldl applyComposerOp st) := by
  induction ops with
  | nil => intro st h; exact h
  | cons op rest ih =>
    intro st h
    exact ih (applyComposerOp st op) (composerInv_step st op h)

theorem composerInv_reachable (ops : List ComposerOp) :
    ComposerInv (runComposerOps ops) :=
  composerInv_foldl ops initialComposerState composerInv_initial

theorem idsSequential_initial : IdsSequential initialComposerState.vehicles := by
  intro j hj
  have hj0 : j = 0 := by
    simp only [initialComposerState, List.length_cons, List.length_nil] at hj
    omega
  subst hj0
  rfl

theorem idsSequential_step (st : ComposerState) (op : ComposerOp)
    (h : IdsSequential st.vehicles) :
    IdsSequential (applyComposerOp st op).vehicles := by
  cases op with
  | setCount count =>
    intro j hj
    have hj2 : j < (resizeVehicles st.vehicles (safeVehicleCount count).toNat).length := hj
    show ((resizeVehicles st.vehicles (safeVehicleCount count).toNat).get ⟨j, hj2⟩).id = j + 1
    by_cases hjs : j < st.vehicles.length
    · rw [resizeVehicles_get_lt st.vehicles (safeVehicleCount count).toNat j hj2 hjs]
      exact h j hjs
    · rw [resizeVehicles_get_ge st.vehicles (safeVehicleCount count).toNat j hj2
        (Nat.le_of_not_lt hjs)]
      rfl
  | setField id field value =>
    intro j hj
    have hj0 : j < st.vehicles.length := by
      simpa [applyComposerOp, setVehicleField] using hj
    simp only [applyComposerOp, setVehicleField, List.get_eq_getElem,
      List.getElem_map]
    have hid := h j hj0
    simp only [List.get_eq_getElem] at hid
    by_cases hmatch : st.vehicles[j].id = id
    · rw [if_pos hmatch]
      cases field <;> simpa [VehicleRequest.setField] using hid
    · rw [if_neg hmatch]
      exact hid
  | setTransmission id t =>
    intro j hj
    have hj0 : j < st.vehicles.length := by
      simpa [applyComposerOp, setVehicleTransmission] using hj
    simp only [applyComposerOp, setVehicleTransmission, List.get_eq_getElem,
      List.getElem_map]
    have hid := h j hj0
    simp only [List.get_eq_getElem] at hid
    by_cases hmatch : st.vehicles[j].id = id
    · rw [if_pos hmatch]
      simpa using hid
    · rw [if_neg hmatch]
      exact hid

theorem idsSequential_foldl (ops : List ComposerOp) :
    ∀ st : ComposerState, IdsSequential st.vehicles →
      IdsSequential (ops.foldl applyComposerOp st).vehicles := by
  induction ops with
  | nil => intro st h; exact h
  | cons op rest ih =>
    intro st h
    exact ih (applyComposerOp st op) (idsSequential_step st op h)

theorem idsSequential_reachable (ops : List ComposerOp) :
    IdsSequential (runComposerOps ops).vehicles :=
  idsSequential_foldl ops initialComposerState idsSequential_initial

/-!  Helper lemmas about the dashboard handlers. -/

theorem handleAcceptRequest_length (reqs : List ShuttleRequest) (rid : String) :
    (handleAcceptRequest reqs rid).length = reqs.length := by
  simp [handleAcceptRequest]

theorem handleCompleteRequest_length (reqs : List ShuttleRequest) (rid : String) :
    (handleCompleteRequest reqs rid).length = reqs.length := by
  simp [handleCompleteRequest]

theorem handleAcceptRequest_get (reqs : List ShuttleRequest) (rid : String)
    (j : Nat) (hj : j < reqs.length)
    (hj2 : j < (handleAcceptRequest reqs rid).length) :
    (handleAcceptRequest reqs rid).get ⟨j, hj2⟩ =
      if (reqs.get ⟨j, hj⟩).id = rid then
        { reqs.get ⟨j, hj⟩ with status := Status.active }
      else reqs.get ⟨j, hj⟩ := by
  simp only [handleAcceptRequest, List.get_eq_getElem, List.getElem_map]

theorem handleCompleteRequest_get (reqs : List ShuttleRequest) (rid : String)
    (j : Nat) (hj : j < reqs.length)
    (hj2 : j < (handleCompleteRequest reqs rid).length) :
    (handleCompleteRequest reqs rid).get ⟨j, hj2⟩ =
      if (reqs.get ⟨j, hj⟩).id = rid then
        { reqs.get ⟨j, hj⟩ with status := Status.completed }
      else reqs.get ⟨j, hj⟩ := by
  simp only [handleCompleteRequest, List.get_eq_getElem, List.getElem_map]

theorem guardedStep_length {a b : List ShuttleRequest} (h : GuardedStep a b) :
    b.length = a.length := by
  cases h with
  | accept rid hguard => exact handleAcceptRequest_length a rid
  | complete rid hguard => exact handleCompleteRequest_length a rid

theorem guardedStep_monotone {a b : List ShuttleRequest} (h : GuardedStep a b)
    (j : Nat) (hja : j < a.length) (hjb : j < b.length) :
    Status.rank (a.get ⟨j, hja⟩).status ≤ Status.rank (b.get ⟨j, hjb⟩).status ∧
      ((a.get ⟨j, hja⟩).status = Status.completed →
        (b.get ⟨j, hjb⟩).status = Status.completed) := by
  cases h with
  | accept rid hguard =>
    rw [handleAcceptRequest_get a rid j hja hjb]
    by_cases hmatch : (a.get ⟨j, hja⟩).id = rid
    · rw [if_pos hmatch]
      have hpend := hguard (a.get ⟨j, hja⟩) (a.get_mem j hja) hmatch
      rw [hpend]
      constructor
      · show Status.rank Status.pending ≤ Status.rank Status.active
        decide
      · intro hc
        exact absurd hc (by decide)
    · rw [if_neg hmatch]
      exact ⟨le_refl _, fun hc => hc⟩
  | complete rid hguard =>
    rw [handleCompleteRequest_get a rid j hja hjb]
    by_cases hmatch : (a.get ⟨j, hja⟩).id = rid
    · rw [if_pos hmatch]
      have hact := hguard (a.get ⟨j, hja⟩) (a.get_mem j hja) hmatch
      rw [hact]
      constructor
      · show Status.rank Status.active ≤ Status.rank Status.completed
        decide
      · intro hc
        exact absurd hc (by decide)
    · rw [if_neg hmatch]
      exact ⟨le_refl _, fun hc => hc⟩

theorem filterMatch_eq (s t : Status) :
    (s.asFilter == StatusFilter.all || t.asFilter == s.asFilter) = (t == s) := by
  cases s <;> cases t <;> rfl

/-!  The claims. -/

/-- Claim C1 (counterexample): invoking accept on a request whose status is
not "pending" is not a no-op. Concretely, accepting a request whose status
is "completed" changes the list, resetting the status to "active": the
handler never inspects the current status. -/
theorem accept_nonPending_not_noop :
    (mkRequest ridOne Status.completed).status ≠ Status.pending ∧
    handleAcceptRequest [mkRequest ridOne Status.completed] ridOne ≠
      [mkRequest ridOne Status.completed] ∧
    (handleAcceptRequest [mkRequest ridOne Status.completed] ridOne).map
      ShuttleRequest.status = [Status.active] := by
  decide

/-- Claim C1 (amended): accept sets the status of every request whose id
matches to "active" regardless of the current status, and leaves the status
of every other request unchanged. In particular a pending request
transitions to active, but a non-pending request is not left unchanged: the
only guard against invalid-state invocation is the UI, which renders the
accept button solely for pending requests. -/
theorem handleAcceptRequest_sets_active (reqs : List ShuttleRequest)
    (rid : String) (j : Nat) (hj : j < reqs.length)
    (hj2 : j < (handleAcceptRequest reqs rid).length) :
    ((handleAcceptRequest reqs rid).get ⟨j, hj2⟩).status =
      if (reqs.get ⟨j, hj⟩).id = rid then Status.active
      else (reqs.get ⟨j, hj⟩).status := by
  rw [handleAcceptRequest_get reqs rid j hj hj2]
  by_cases hmatch : (reqs.get ⟨j, hj⟩).id = rid
  · rw [if_pos hmatch, if_pos hmatch]
  · rw [if_neg hmatch, if_neg hmatch]

/-- Witness for the amended C1: accepting a completed request makes it
active, and accepting a pending request also makes it active. -/
theorem handleAcceptRequest_sets_active_witness :
    ((handleAcceptRequest [mkRequest ridOne Status.completed] ridOne).get
      ⟨0, by decide⟩).status = Status.active ∧
    ((handleAcceptRequest [mkRequest ridTwo Status.pending] ridTwo).get
      ⟨0, by decide⟩).status = Status.active := by
  constructor
  · rw [handleAcceptRequest_sets_active [mkRequest ridOne Status.completed]
      ridOne 0 (by decide) (by decide)]
    decide
  · rw [handleAcceptRequest_sets_active [mkRequest ridTwo Status.pending]
      ridTwo 0 (by decide) (by decide)]
    decide

/-- Claim C2 (counterexample): invoking complete on a request whose status
is not "active" is not a no-op. Concretely, completing a request whose
status is still "pending" changes the list, jumping the status straight to
"completed": the handler never inspects the current status. -/
theorem complete_nonActive_not_noop :
    (mkRequest ridOne Status.pending).status ≠ Status.active ∧
    handleCompleteRequest [mkRequest ridOne Status.pending] ridOne ≠
      [mkRequest ridOne Status.pending] ∧
    (handleCompleteRequest [mkRequest ridOne Status.pending] ridOne).map
      ShuttleRequest.status = [Status.completed] := by
  decide

/-- Claim C2 (amended): complete sets the status of every request whose id
matches to "completed" regardless of the current status, and leaves the
status of every other request unchanged. In particular an active request
transitions to completed, but a non-active request is not left unchanged:
the only guard against invalid-state invocation is the UI, which renders
the completion button solely for active requests. -/
theorem handleCompleteRequest_sets_completed (reqs : List ShuttleRequest)
    (rid : String) (j : Nat) (hj : j < reqs.length)
    (hj2 : j < (handleCompleteRequest reqs rid).length) :
    ((handleCompleteRequest reqs rid).get ⟨j, hj2⟩).status =
      if (reqs.get ⟨j, hj⟩).id = rid then Status.completed
      else (reqs.get ⟨j, hj⟩).status := by
  rw [handleCompleteRequest_get reqs rid j hj hj2]
  by_cases hmatch : (reqs.get ⟨j, hj⟩).id = rid
  · rw [if_pos hmatch, if_pos hmatch]
  · rw [if_neg hmatch, if_neg hmatch]

/-- Witness for the amended C2: completing a pending request jumps it to
completed, and completing an active request also makes it completed. -/
theorem handleCompleteRequest_sets_completed_witness :
    ((handleCompleteRequest [mkRequest ridOne Status.pending] ridOne).get
      ⟨0, by decide⟩).status = Status.completed ∧
    ((handleCompleteRequest [mkRequest ridTwo Status.active] ridTwo).get
      ⟨0, by decide⟩).status = Status.completed := by
  constructor
  · rw [handleCompleteRequest_sets_completed [mkRequest ridOne Status.pending]
      ridOne 0 (by decide) (by decide)]
    decide
  · rw [handleCompleteRequest_sets_completed [mkRequest ridTwo Status.active]
      ridTwo 0 (by decide) (by decide)]
    decide

/-- Claim C3 (counterexample): the raw handlers can move a status backward.
Invoking accept on a request whose status is "completed" is a reachable
operation sequence that moves the status from "completed" (rank 2) back to
"active" (rank 1), a transition that both reverses the lifecycle order and
leaves the "completed" state. -/
theorem status_can_move_backward :
    (runConsoleOps [mkRequest ridOne Status.completed]
      [ConsoleOp.accept ridOne]).map ShuttleRequest.status = [Status.active] ∧
    Status.rank Status.active < Status.rank Status.completed := by
  decide

/-- Claim C3 (amended): under every sequence of accept and complete
invocations that respects the guard the UI enforces (accept is invoked only
when every request carrying the targeted id is pending, complete only when
every such request is active), the length of the collection is preserved,
each request status only moves forward along
pending → active → completed (its rank never decreases), and no transition
leaves the "completed" status. Without that guard the raw handlers can move
a status backward. -/
theorem guarded_status_monotone (a b : List ShuttleRequest)
    (h : Relation.ReflTransGen GuardedStep a b) :
    b.length = a.length ∧
    ∀ j (hja : j < a.length) (hjb : j < b.length),
      Status.rank (a.get ⟨j, hja⟩).status ≤
        Status.rank (b.get ⟨j, hjb⟩).status ∧
      ((a.get ⟨j, hja⟩).status = Status.completed →
        (b.get ⟨j, hjb⟩).status = Status.completed) := by
  induction h with
  | refl => exact ⟨rfl, fun j hja hjb => ⟨le_refl _, fun hc => hc⟩⟩
  | @tail b c hab hbc ih =>
    obtain ⟨hlen, hmono⟩ := ih
    have hlen2 := guardedStep_length hbc
    refine ⟨hlen2.trans hlen, fun j hja hjc => ?_⟩
    have hjb : j < b.length := by omega
    obtain ⟨h1, h1c⟩ := hmono j hja hjb
    obtain ⟨h2, h2c⟩ := guardedStep_monotone hbc j hjb hjc
    exact ⟨le_trans h1 h2, fun hc => h2c (h1c hc)⟩

/-- Witness for the amended C3: a pending request accepted and then
completed under the UI guard; the theorem yields that its status rank never
decreased across the two transitions. -/
theorem guarded_status_monotone_witness :
    Status.rank (([mkRequest ridOne Status.pending].get ⟨0, by decide⟩).status) ≤
      Status.rank ((handleCompleteRequest
        (handleAcceptRequest [mkRequest ridOne Status.pending] ridOne)
        ridOne).get ⟨0, by decide⟩).status := by
  have hstep1 : GuardedStep [mkRequest ridOne Status.pending]
      (handleAcceptRequest [mkRequest ridOne Status.pending] ridOne) :=
    GuardedStep.accept [mkRequest ridOne Status.pending] ridOne (by decide)
  have hstep2 : GuardedStep
      (handleAcceptRequest [mkRequest ridOne Status.pending] ridOne)
      (handleCompleteRequest
        (handleAcceptRequest [mkRequest ridOne Status.pending] ridOne)
        ridOne) :=
    GuardedStep.complete
      (handleAcceptRequest [mkRequest ridOne Status.pending] ridOne) ridOne
      (by decide)
  have hchain := Relation.ReflTransGen.tail
    (Relation.ReflTransGen.single hstep1) hstep2
  exact ((guarded_status_monotone _ _ hchain).2 0 (by decide) (by decide)).1


/-- Claim C4: for every integer input n to the set-vehicle-count operation,
the resulting vehicle list has length clamp(n, 1, 10), and the stored count
equals that same clamp; out-of-range inputs are absorbed by the total clamp
rather than raising an error. -/
theorem vehicleCount_clamped (st : ComposerState) (n : Int) :
    (((handleVehicleCountChange st n).vehicles.length : Int) =
      max 1 (min 10 n)) ∧
    (((handleVehicleCountChange st n).vehicleCount : Int) =
      max 1 (min 10 n)) := by
  have hlen : (handleVehicleCountChange st n).vehicles.length =
      (safeVehicleCount n).toNat :=
    resizeVehicles_length st.vehicles (safeVehicleCount n).toNat
  have hcnt : (handleVehicleCountChange st n).vehicleCount =
      (safeVehicleCount n).toNat := rfl
  rw [hlen, hcnt]
  unfold safeVehicleCount
  omega

/-- Claim C5: when the set-vehicle-count operation runs, every index that
survives keeps its prior vehicle record unchanged (so an increase keeps the
existing vehicles and a decrease retains the surviving prefix values), every
index beyond the old length holds a newly-initialized record with
sequential id (position + 1), default transmission "automatic" and blank
make/model/year, and when the clamped count does not exceed the old length
the new list is exactly the prefix of the old one. -/
theorem vehicleCountChange_extends_or_truncates (st : ComposerState) (n : Int) :
    ((safeVehicleCount n).toNat ≤ st.vehicles.length →
      (handleVehicleCountChange st n).vehicles =
        st.vehicles.take (safeVehicleCount n).toNat) ∧
    ∀ j (hj : j < (handleVehicleCountChange st n).vehicles.length),
      (∀ hjs : j < st.vehicles.length,
        (handleVehicleCountChange st n).vehicles.get ⟨j, hj⟩ =
          st.vehicles.get ⟨j, hjs⟩) ∧
      (st.vehicles.length ≤ j →
        (handleVehicleCountChange st n).vehicles.get ⟨j, hj⟩ =
          { id := j + 1, transmission := TransmissionType.automatic,
            make := "", model := "", year := "" }) := by
  constructor
  · intro hle
    show resizeVehicles st.vehicles (safeVehicleCount n).toNat =
      st.vehicles.take (safeVehicleCount n).toNat
    unfold resizeVehicles
    by_cases h1 : st.vehicles.length < (safeVehicleCount n).toNat
    · omega
    · by_cases h2 : (safeVehicleCount n).toNat < st.vehicles.length
      · rw [if_neg h1, if_pos h2]
      · rw [if_neg h1, if_neg h2]
        have heq : (safeVehicleCount n).toNat = st.vehicles.length := by omega
        rw [heq, List.take_length]
  · intro j hj
    refine ⟨fun hjs => ?_, fun hge => ?_⟩
    · exact resizeVehicles_get_lt st.vehicles (safeVehicleCount n).toNat j hj hjs
    · exact resizeVehicles_get_ge st.vehicles (safeVehicleCount n).toNat j hj hge

/-- Witness for C5: raising the count of the initial state to 3 appends a
default record with id 3 at index 2, and lowering it back to 1 truncates to
the one-element prefix. -/
theorem vehicleCountChange_extends_or_truncates_witness :
    (handleVehicleCountChange initialComposerState 3).vehicles.get
        ⟨2, by decide⟩ =
      { id := 3, transmission := TransmissionType.automatic,
        make := "", model := "", year := "" } ∧
    (handleVehicleCountChange
        (handleVehicleCountChange initialComposerState 3) 1).vehicles =
      (handleVehicleCountChange initialComposerState 3).vehicles.take 1 := by
  constructor
  · exact ((vehicleCountChange_extends_or_truncates
      initialComposerState 3).2 2 (by decide)).2 (by decide)
  · exact (vehicleCountChange_extends_or_truncates
      (handleVehicleCountChange initialComposerState 3) 1).1 (by decide)

/-- Claim C6: in every composer state reachable by a sequence of operations,
updating a string field of the vehicle whose id is the one at index i
changes only that field of that record: the count is untouched, the list
length is preserved, every vehicle at an index other than i is unchanged,
and the targeted record keeps its id, its transmission and every string
field other than the one written, which receives the new value. -/
theorem setVehicleField_frame (ops : List ComposerOp) (st : ComposerState)
    (hst : st = runComposerOps ops) (i : Nat) (hi : i < st.vehicles.length)
    (field : VehicleField) (value : String) :
    (setVehicleField st (st.vehicles.get ⟨i, hi⟩).id field value).vehicleCount =
      st.vehicleCount ∧
    (setVehicleField st (st.vehicles.get ⟨i, hi⟩).id field
        value).vehicles.length = st.vehicles.length ∧
    (∀ j (hj : j < st.vehicles.length)
        (hj2 : j < (setVehicleField st (st.vehicles.get ⟨i, hi⟩).id field
          value).vehicles.length),
      j ≠ i →
        (setVehicleField st (st.vehicles.get ⟨i, hi⟩).id field
          value).vehicles.get ⟨j, hj2⟩ = st.vehicles.get ⟨j, hj⟩) ∧
    ∀ hi2 : i < (setVehicleField st (st.vehicles.get ⟨i, hi⟩).id field
        value).vehicles.length,
      ((setVehicleField st (st.vehicles.get ⟨i, hi⟩).id field
          value).vehicles.get ⟨i, hi2⟩).id = (st.vehicles.get ⟨i, hi⟩).id ∧
      ((setVehicleField st (st.vehicles.get ⟨i, hi⟩).id field
          value).vehicles.get ⟨i, hi2⟩).transmission =
        (st.vehicles.get ⟨i, hi⟩).transmission ∧
      (field = VehicleField.make →
        ((setVehicleField st (st.vehicles.get ⟨i, hi⟩).id field
            value).vehicles.get ⟨i, hi2⟩).make = value ∧
        ((setVehicleField st (st.vehicles.get ⟨i, hi⟩).id field
            value).vehicles.get ⟨i, hi2⟩).model =
          (st.vehicles.get ⟨i, hi⟩).model ∧
        ((setVehicleField st (st.vehicles.get ⟨i, hi⟩).id field
            value).vehicles.get ⟨i, hi2⟩).year =
          (st.vehicles.get ⟨i, hi⟩).year) ∧
      (field = VehicleField.model →
        ((setVehicleField st (st.vehicles.get ⟨i, hi⟩).id field
            value).vehicles.get ⟨i, hi2⟩).model = value ∧
        ((setVehicleField st (st.vehicles.get ⟨i, hi⟩).id field
            value).vehicles.get ⟨i, hi2⟩).make =
          (st.vehicles.get ⟨i, hi⟩).make ∧
        ((setVehicleField st (st.vehicles.get ⟨i, hi⟩).id field
            value).vehicles.get ⟨i, hi2⟩).year =
          (st.vehicles.get ⟨i, hi⟩).year) ∧
      (field = VehicleField.year →
        ((setVehicleField st (st.vehicles.get ⟨i, hi⟩).id field
            value).vehicles.get ⟨i, hi2⟩).year = value ∧
        ((setVehicleField st (st.vehicles.get ⟨i, hi⟩).id field
            value).vehicles.get ⟨i, hi2⟩).make =
          (st.vehicles.get ⟨i, hi⟩).make ∧
        ((setVehicleField st (st.vehicles.get ⟨i, hi⟩).id field
            value).vehicles.get ⟨i, hi2⟩).model =
          (st.vehicles.get ⟨i, hi⟩).model) := by
  subst hst
  have hids := idsSequential_reachable ops
  refine ⟨rfl, by simp [setVehicleField], ?_, ?_⟩
  · intro j hj hj2 hne
    simp only [setVehicleField, List.get_eq_getElem, List.getElem_map]
    have hjid := hids j hj
    have hiid := hids i hi
    simp only [List.get_eq_getElem] at hjid hiid
    rw [if_neg]
    rw [hjid, hiid]
    omega
  · intro hi2
    have hget : (setVehicleField (runComposerOps ops)
        ((runComposerOps ops).vehicles.get ⟨i, hi⟩).id field
        value).vehicles.get ⟨i, hi2⟩ =
        ((runComposerOps ops).vehicles.get ⟨i, hi⟩).setField field value := by
      simp only [setVehicleField, List.get_eq_getElem, List.getElem_map]
      simp
    rw [hget]
    cases field <;>
      refine ⟨rfl, rfl, ?_, ?_, ?_⟩ <;> intro hf <;>
        first
          | exact ⟨rfl, rfl, rfl⟩
          | cases hf

/-- Witness for C6: in the reachable two-vehicle state, writing the make of
vehicle 1 (index 0) leaves the vehicle at index 1 unchanged. -/
theorem setVehicleField_frame_witness :
    (setVehicleField (runComposerOps [ComposerOp.setCount 2])
        ((runComposerOps [ComposerOp.setCount 2]).vehicles.get
          ⟨0, by decide⟩).id
        VehicleField.make sampleMake).vehicles.get ⟨1, by decide⟩ =
      (runComposerOps [ComposerOp.setCount 2]).vehicles.get ⟨1, by decide⟩ :=
  (setVehicleField_frame [ComposerOp.setCount 2]
    (runComposerOps [ComposerOp.setCount 2]) rfl 0 (by decide)
    VehicleField.make sampleMake).2.2.1 1 (by decide) (by decide) (by decide)

/-- Claim C7: the invariant that the vehicle list length equals the declared
vehicle count and the count lies in [1, 10] holds in the initial composer
state, is preserved by every composer operation, and therefore holds in
every reachable composer state. -/
theorem composerInvariant (st : ComposerState) (op : ComposerOp)
    (ops : List ComposerOp) :
    ComposerInv initialComposerState ∧
    (ComposerInv st → ComposerInv (applyComposerOp st op)) ∧
    ComposerInv (runComposerOps ops) :=
  ⟨composerInv_initial, composerInv_step st op, composerInv_reachable ops⟩

/-- Witness for C7: the invariant holds initially, after one concrete
set-count operation applied to the initial state, and in the state reached
by that same operation sequence. -/
theorem composerInvariant_witness :
    ComposerInv initialComposerState ∧
    ComposerInv (applyComposerOp initialComposerState (ComposerOp.setCount 5)) ∧
    ComposerInv (runComposerOps [ComposerOp.setCount 5]) := by
  have h := composerInvariant initialComposerState (ComposerOp.setCount 5)
    [ComposerOp.setCount 5]
  exact ⟨h.1, h.2.1 (by decide), h.2.2⟩

/-- Claim C8: filtering by "all" returns exactly the unfiltered list, and
filtering by a status returns exactly the sublist of requests carrying that
status in their original relative order; the computation is a pure function
of the list and never rearranges it. -/
theorem filteredRequests_spec (reqs : List ShuttleRequest) :
    filteredRequests reqs StatusFilter.all = reqs ∧
    ∀ s : Status,
      filteredRequests reqs (Status.asFilter s) =
        reqs.filter (fun r => r.status == s) ∧
      (filteredRequests reqs (Status.asFilter s)).Sublist reqs := by
  constructor
  · unfold filteredRequests
    have hall : (fun (request : ShuttleRequest) =>
        (StatusFilter.all == StatusFilter.all ||
          request.status.asFilter == StatusFilter.all)) =
        fun _ => true := by
      funext r
      rfl
    rw [hall, List.filter_true]
  · intro s
    refine ⟨?_, ?_⟩
    · unfold filteredRequests
      exact List.filter_congr fun r _ => filterMatch_eq s r.status
    · exact List.filter_sublist reqs

/-- Claim C9: each derived count shown by the dashboard equals the number of
requests in the current list having that status, and the "all" tab count is
the list length: the counts are functions of the live collection, with no
separate tally that could go stale. -/
theorem derivedCounts_live (reqs : List ShuttleRequest) :
    pendingCount reqs = reqs.countP (fun r => r.status == Status.pending) ∧
    activeCount reqs = reqs.countP (fun r => r.status == Status.active) ∧
    completedCount reqs =
      reqs.countP (fun r => r.status == Status.completed) ∧
    allCount reqs = reqs.length := by
  refine ⟨?_, ?_, ?_, rfl⟩ <;>
    simp [pendingCount, activeCount, completedCount,
      List.countP_eq_length_filter]

/-- Claim C10: accept and complete preserve the length (and hence order) of
the request list, leave every request with a different id completely
unchanged, and on the matching request change nothing but the status
field. -/
theorem statusHandlers_frame (reqs : List ShuttleRequest) (rid : String) :
    (handleAcceptRequest reqs rid).length = reqs.length ∧
    (handleCompleteRequest reqs rid).length = reqs.length ∧
    ∀ j (hj : j < reqs.length)
      (hja : j < (handleAcceptRequest reqs rid).length)
      (hjc : j < (handleCompleteRequest reqs rid).length),
      ((reqs.get ⟨j, hj⟩).id ≠ rid →
        (handleAcceptRequest reqs rid).get ⟨j, hja⟩ = reqs.get ⟨j, hj⟩ ∧
        (handleCompleteRequest reqs rid).get ⟨j, hjc⟩ = reqs.get ⟨j, hj⟩) ∧
      ((reqs.get ⟨j, hj⟩).id = rid →
        (handleAcceptRequest reqs rid).get ⟨j, hja⟩ =
          { reqs.get ⟨j, hj⟩ with status := Status.active } ∧
        (handleCompleteRequest reqs rid).get ⟨j, hjc⟩ =
          { reqs.get ⟨j, hj⟩ with status := Status.completed }) := by
  refine ⟨handleAcceptRequest_length reqs rid,
    handleCompleteRequest_length reqs rid, ?_⟩
  intro j hj hja hjc
  constructor
  · intro hne
    constructor
    · rw [handleAcceptRequest_get reqs rid j hj hja, if_neg hne]
    · rw [handleCompleteRequest_get reqs rid j hj hjc, if_neg hne]
  · intro heq
    constructor
    · rw [handleAcceptRequest_get reqs rid j hj hja, if_pos heq]
    · rw [handleCompleteRequest_get reqs rid j hj hjc, if_pos heq]

/-- Witness for C10: in a two-request list, accepting request 1 leaves
request 2 untouched, and completing request 2 changes only its status. -/
theorem statusHandlers_frame_witness :
    (handleAcceptRequest [mkRequest ridOne Status.pending,
        mkRequest ridTwo Status.active] ridOne).get ⟨1, by decide⟩ =
      mkRequest ridTwo Status.active ∧
    (handleCompleteRequest [mkRequest ridOne Status.pending,
        mkRequest ridTwo Status.active] ridTwo).get ⟨1, by decide⟩ =
      { mkRequest ridTwo Status.active with status := Status.completed } := by
  have h1 := statusHandlers_frame [mkRequest ridOne Status.pending,
    mkRequest ridTwo Status.active] ridOne
  have h2 := statusHandlers_frame [mkRequest ridOne Status.pending,
    mkRequest ridTwo Status.active] ridTwo
  exact ⟨((h1.2.2 1 (by decide) (by decide) (by decide)).1 (by decide)).1,
    ((h2.2.2 1 (by decide) (by decide) (by decide)).2 (by decide)).2⟩
